import Mathlib

/-!
Verification of the smart-voice-splitter repository.

The repository is a web application that splits an uploaded audio
recording into titled, time-bounded chunks.  The files under
`src/frontend` (and the two earlier component versions shipped alongside
them) are the React frontend; the FastAPI backend (`backend/main.py`,
`backend/services`, `backend/models.py`) is not part of the source tree
we were given, so backend behaviour is modelled from the specification
where a claim needs it (each such definition carries a doc comment
starting with `Modelled from the spec:`).

Strings are embedded as `List Char` (abbreviated `Str`) so that path
manipulation (`split`, prefix stripping) is provable by induction.
Seconds are embedded as `ℚ`: the source stores them as floating-point
numbers, but every operation the claims touch is order/min/max
arithmetic, for which `ℚ` is a faithful model.
-/

/-- Strings of the embedded program, as lists of characters. -/
abbrev Str := List Char

/-- The status union type of `Recording` in `src/frontend/src/api.ts`
(`'pending' | 'processing' | 'completed' | 'failed'`). -/
inductive Status where
  | pending
  | processing
  | completed
  | failed
deriving DecidableEq

/-- The `Chunk` interface of `src/frontend/src/api.ts`.  `file_path` does
not appear in the TypeScript interface but is read by
`DetailView.tsx` (`chunk.file_path`, possibly absent), so it is included
as an optional field. -/
structure Chunk where
  id : Nat
  recording_id : Nat
  title : Str
  transcript : Str
  start_time : ℚ
  end_time : ℚ
  file_path : Option Str
  user_note : Option Str
  is_bookmarked : Bool
deriving DecidableEq

/-- The `Recording` interface of `src/frontend/src/api.ts`.  `duration`
is not in the TypeScript interface but is read by `DetailView.tsx`
(`profile.recordings[0]?.duration`), so it is included. -/
structure Recording where
  id : Nat
  profile_id : Nat
  file_path : Str
  status : Status
  created_at : Str
  duration : ℚ
  chunks : List Chunk
deriving DecidableEq

/-- The `Profile` interface of `src/frontend/src/api.ts`.  `recorded_at`
is an ISO timestamp string in the source; the dashboard only ever uses
it through `new Date(x).getTime()`, so it is embedded directly as the
resulting epoch-milliseconds integer. -/
structure Profile where
  id : Nat
  title : Str
  recorded_at : Int
  summary : Option Str
  created_at : Str
  recordings : List Recording
deriving DecidableEq

/-- Error taxonomy of the exposed API surface (spec §7): the two error
kinds the claims mention. -/
inductive ApiError where
  | notFound
  | conflict
deriving DecidableEq

/-- Pipeline-internal failure of the assembler (spec §4.3:
`SegmentationError: empty result`). -/
inductive PipelineError where
  | segmentationEmpty
deriving DecidableEq

/-- A segmentation proposal `(title, start, end, text)` (spec §4.3,
§6).  `end` is a Lean keyword, so the field is named `stop`. -/
structure Proposal where
  title : Str
  start : ℚ
  stop : ℚ
  text : Str
deriving DecidableEq

/-- Modelled from the spec: ChunkAssembler step "Clamp first proposal's
start to `0`" (§4.3); the assembler lives in `backend/services`, which
is not under src/.  Clamping restricts the value to the allowed range,
so a negative start becomes `0` and a nonnegative one is kept. -/
def clampFirst : List Proposal → List Proposal
  | [] => []
  | p :: ps => { p with start := max 0 p.start } :: ps

/-- Modelled from the spec: ChunkAssembler step "clamp last proposal's
end to the recording duration" (§4.3); backend code not under src/. -/
def clampLast (d : ℚ) : List Proposal → List Proposal
  | [] => []
  | [p] => [{ p with stop := min d p.stop }]
  | p :: q :: rest => p :: clampLast d (q :: rest)

/-- Modelled from the spec: ChunkAssembler step "Enforce monotonic
non-overlap: if proposal `i`'s end exceeds proposal `i+1`'s start, set
`end_i = start_{i+1}`" (§4.3); backend code not under src/. -/
def resolveOverlaps : List Proposal → List Proposal
  | [] => []
  | [p] => [p]
  | p :: q :: rest =>
      { p with stop := if q.start < p.stop then q.start else p.stop } ::
        resolveOverlaps (q :: rest)

/-- Modelled from the spec: ChunkAssembler step "Drop degenerate
proposals where `end ≤ start` after clamping" (§4.3); backend code not
under src/. -/
def dropDegenerate (ps : List Proposal) : List Proposal :=
  ps.filter (fun p => decide (p.start < p.stop))

/-- Modelled from the spec: the boundary-producing part of
ChunkAssembler (§4.3), composing clamping, overlap resolution and
degenerate-proposal dropping in the order the spec lists them; backend
code not under src/. -/
def assembleChunks (d : ℚ) (ps : List Proposal) : List Proposal :=
  dropDegenerate (resolveOverlaps (clampLast d (clampFirst ps)))

/-- Modelled from the spec: ChunkAssembler (§4.3) including the
"Require at least one surviving chunk" rule; zero survivors is the
pipeline failure `SegmentationError: empty result`.  Materialising one
audio artifact per surviving chunk (AudioSlicer) does not affect the
time boundaries and is abstracted away here. -/
def assemble (d : ℚ) (ps : List Proposal) : Except PipelineError (List Proposal) :=
  let cs := assembleChunks d ps
  if cs.isEmpty then .error .segmentationEmpty else .ok cs

/-- The worked example of spec §8: proposals of a 600-second
recording. -/
def exampleProposals : List Proposal :=
  [⟨"Intro".data, 0, 120, "".data⟩,
   ⟨"Body".data, 115, 400, "".data⟩,
   ⟨"Outro".data, 400, 600, "".data⟩]

/-- The expected assembled chunk boundaries of the spec §8 example. -/
def exampleAssembled : List Proposal :=
  [⟨"Intro".data, 0, 115, "".data⟩,
   ⟨"Body".data, 115, 400, "".data⟩,
   ⟨"Outro".data, 400, 600, "".data⟩]

/-- Dashboard (the newer version, src/unnamed/part_001 line 303):
`const status = recording?.status || 'pending'`. -/
def statusOf (rec : Option Recording) : Status :=
  match rec with
  | some r => r.status
  | none => .pending

/-- Chunk count of the dashboard's first recording
(`recording.chunks.length`); the source only evaluates it under the
`hasRecording` guard. -/
def chunksLen (rec : Option Recording) : Nat :=
  match rec with
  | some r => r.chunks.length
  | none => 0

/-- Dashboard line 312: `const isProcessing = status === 'processing' ||
retryingIds.has(profile.id)`.  `retrying` stands for
`retryingIds.has(profile.id)`. -/
def isProcessingUI (rec : Option Recording) (retrying : Bool) : Bool :=
  decide (statusOf rec = .processing) || retrying

/-- Dashboard line 316: `const showRetry = hasRecording && !isProcessing
&& (status === 'failed' || (status === 'completed' &&
recording.chunks.length === 0))`. -/
def showRetry (rec : Option Recording) (retrying : Bool) : Bool :=
  rec.isSome && !(isProcessingUI rec retrying) &&
    (decide (statusOf rec = .failed) ||
      (decide (statusOf rec = .completed) && decide (chunksLen rec = 0)))

/-- Dashboard `fetchProfiles` (both versions, src/unnamed/part_001 lines
24 and 217): `data.sort((a, b) => new Date(b.recorded_at).getTime() -
new Date(a.recorded_at).getTime())`, i.e. sort descending by the
`recorded_at` timestamp.  The JavaScript comparator sort is embedded as
a merge sort with the corresponding boolean order. -/
def sortProfiles (l : List Profile) : List Profile :=
  l.mergeSort (fun a b => decide (b.recorded_at ≤ a.recorded_at))

/-- Dashboard `handleRetry` (src/unnamed/part_001 lines 236 and 242,
`handleRetry(e, profile.id)` calling `retryProcessing(profileId)`): the
identifier handed to the retry API call is the profile's id. -/
def handleRetryArg (p : Profile) : Nat :=
  p.id

/-- `retryProcessing` of `src/frontend/src/api.ts` lines 67-70: the URL
the retry request is posted to, `/profiles/${profileId}/retry`. -/
def retryProcessingPath (profileId : Nat) : Str :=
  "/profiles/".data ++ (Nat.repr profileId).data ++ "/retry".data

/-- The static-file base URL used by both DetailView versions:
`http://localhost:8000/static/`. -/
def staticBase : Str :=
  "http://localhost:8000/static/".data

/-- The path rewrite of `DetailView.tsx` `getAudioUrl` line 100:
`filePath.replace(/^uploads\//, '')` — the anchored, non-global regex
strips one leading `uploads/` if present and otherwise leaves the
string unchanged. -/
def stripUploads (s : Str) : Str :=
  if s.take 8 = "uploads/".data then s.drop 8 else s

/-- `DetailView.tsx` lines 97-102: `getAudioUrl` returns the empty
string on a missing (`null`, modelled `none`) or empty (falsy) path and
otherwise prepends the static base to the stripped path. -/
def getAudioUrl (filePath : Option Str) : Str :=
  match filePath with
  | none => []
  | some s => if s = [] then [] else staticBase ++ stripUploads s

/-- The split of a path at `/` characters, as JavaScript
`s.split('/')` computes it (`''.split('/')` is `['']`). -/
def splitOnSlash : Str → List Str
  | [] => [[]]
  | c :: cs =>
      match splitOnSlash cs with
      | [] => [[]]
      | g :: gs => if c = '/' then [] :: g :: gs else (c :: g) :: gs

/-- JavaScript `s.split('/').pop()`: the last component of the split
(the split of a string is never empty, so the default is never hit). -/
def lastComponent (s : Str) : Str :=
  (splitOnSlash s).getLastD []

/-- The earlier DetailView (src/unnamed/part_002 lines 138-139):
`const audioFilename = recording?.file_path.split('/').pop(); const
audioUrl = ...static/${audioFilename}`. -/
def audioUrlOld (s : Str) : Str :=
  staticBase ++ lastComponent s

/-- The per-chunk update inside `DetailView.tsx` `toggleBookmark` line
178-180: `c.id === chunkId ? { ...c, is_bookmarked: !c.is_bookmarked }
: c`. -/
def toggleChunk (cid : Nat) (c : Chunk) : Chunk :=
  if c.id = cid then { c with is_bookmarked := !c.is_bookmarked } else c

/-- The per-recording map inside `toggleBookmark` lines 176-181:
`{ ...r, chunks: r.chunks.map(...) }`. -/
def toggleRecording (cid : Nat) (r : Recording) : Recording :=
  { r with chunks := r.chunks.map (toggleChunk cid) }

/-- `DetailView.tsx` `toggleBookmark` lines 176-184: the optimistic
client-state update `setProfile({ ...profile, recordings:
updatedRecordings })`. -/
def toggleBookmark (p : Profile) (cid : Nat) : Profile :=
  { p with recordings := p.recordings.map (toggleRecording cid) }

/-- `DetailView.tsx` `toggleBookmark` lines 183-187: `wasBookmarked =
updatedRecordings[0].chunks.find(c => c.id === chunkId)?.is_bookmarked`,
then `updateChunk(chunkId, { is_bookmarked: wasBookmarked })`.  The
value is looked up in the FIRST updated recording only; `none` models
the `undefined` the optional chain yields when the id is not found
there (a payload field that JSON serialisation then drops). -/
def toggleBookmarkSent (p : Profile) (cid : Nat) : Option Bool :=
  ((toggleBookmark p cid).recordings.head?).bind
    (fun r => (r.chunks.find? (fun c => c.id == cid)).map (fun c => c.is_bookmarked))

/-- The request body type of `updateChunk` in `src/frontend/src/api.ts`
line 48: `{ user_note?: string; is_bookmarked?: boolean }` — the only
two fields a chunk update can carry. -/
structure ChunkUpdate where
  user_note : Option Str
  is_bookmarked : Option Bool
deriving DecidableEq

/-- Modelled from the spec: the backend PATCH `/chunks/{id}` handler
(`update_chunk(chunk_id, {note?, bookmarked?}) -> Chunk`, §6;
`backend/main.py` is not under src/): a field-level update that applies
exactly the provided note/bookmark fields and touches nothing else. -/
def update_chunk (c : Chunk) (u : ChunkUpdate) : Chunk :=
  { c with
    user_note := match u.user_note with
      | some n => some n
      | none => c.user_note,
    is_bookmarked := u.is_bookmarked.getD c.is_bookmarked }

/-- Modelled from the spec: the upload operation (§4.2 "States:
`pending` (initial, set at upload before any processing attempt)", §3;
`backend/main.py` is not under src/): the Recording it creates starts
in `pending` with no chunks and an as-yet-unknown duration. -/
def uploadRecording (rid pid : Nat) (fp : Str) (createdAt : Str) : Recording :=
  { id := rid, profile_id := pid, file_path := fp, status := .pending,
    created_at := createdAt, duration := 0, chunks := [] }

/-- The durable server-side state the exposed operations act on:
profiles (each owning recordings and chunks), the stored audio
artifacts, and a counter of pipeline runs started (used to express
"does not start a second run"). -/
structure ServerState where
  profiles : List Profile
  files : List Str
  runsStarted : Nat
deriving DecidableEq

/-- All audio artifacts belonging to a recording: its source file and
every chunk's materialized per-chunk file. -/
def artifactsOfRecording (r : Recording) : List Str :=
  r.file_path :: r.chunks.filterMap (fun c => c.file_path)

/-- All audio artifacts belonging to a profile. -/
def artifactsOfProfile (p : Profile) : List Str :=
  p.recordings.flatMap artifactsOfRecording

/-- Modelled from the spec: `get_profile(id) -> Profile` with
`NotFoundError` on a nonexistent id (§6, §7; `backend/main.py` is not
under src/). -/
def getProfileS (st : ServerState) (pid : Nat) : Except ApiError Profile :=
  match st.profiles.find? (fun p => p.id == pid) with
  | some p => .ok p
  | none => .error .notFound

/-- Modelled from the spec: `delete_profile(id)` (§3, §6, §8;
`backend/main.py` is not under src/): removes every profile with that
id together with its Recordings and Chunks, and deletes all their
materialized audio artifacts from storage (no orphaned files). -/
def deleteProfileS (st : ServerState) (pid : Nat) : ServerState :=
  let victims := st.profiles.filter (fun p => p.id == pid)
  { st with
    profiles := st.profiles.filter (fun p => !(p.id == pid)),
    files := st.files.filter
      (fun f => decide (f ∉ victims.flatMap artifactsOfProfile)) }

/-- Replacing the first recording of the profile with the given id
(the pipeline mutates the profile's single recording, spec §3). -/
def setFirstRecording (st : ServerState) (pid : Nat) (r : Recording) : ServerState :=
  { st with
    profiles := st.profiles.map
      (fun p => if p.id = pid then { p with recordings := r :: p.recordings.tail } else p) }

/-- Modelled from the spec: the retry endpoint (§4.2, §5, §6, §7;
`backend/main.py` is not under src/).  The frontend posts to
`/profiles/{profileId}/retry`, so the operation is keyed by profile id
and acts on that profile's first recording.  A retry while the
recording is already `processing` is rejected with `ConflictError` and
changes nothing (§5 mutual exclusion); otherwise one pipeline run
starts (the run counter increments), the external transcription and
segmentation services being abstracted by `result` (`none` = failure,
`some (duration, proposals)` = their combined output) and id/artifact
assignment for new chunks by `mkChunk`.  The resulting Recording is
returned. -/
def retryBackend (result : Option (ℚ × List Proposal))
    (mkChunk : Nat → Proposal → Chunk)
    (st : ServerState) (pid : Nat) : Except ApiError Recording × ServerState :=
  match st.profiles.find? (fun p => p.id == pid) with
  | none => (.error .notFound, st)
  | some p =>
    match p.recordings.head? with
    | none => (.error .notFound, st)
    | some r =>
      if r.status = .processing then (.error .conflict, st)
      else
        let st1 := { st with runsStarted := st.runsStarted + 1 }
        match result with
        | none =>
            let r1 := { r with status := .failed }
            (.ok r1, setFirstRecording st1 pid r1)
        | some (d, ps) =>
            match assemble d ps with
            | .error _ =>
                let r1 := { r with status := .failed }
                (.ok r1, setFirstRecording st1 pid r1)
            | .ok cs =>
                let r1 : Recording :=
                  { r with
                    status := .completed
                    duration := d
                    chunks := cs.map (mkChunk r.id) }
                (.ok r1, setFirstRecording st1 pid r1)

/-- A failed Recording used as a concrete test input (its id, 7,
deliberately differs from its profile's id, 1). -/
def recFailedEx : Recording :=
  { id := 7, profile_id := 1, file_path := "uploads/a.mp3".data, status := .failed,
    created_at := [], duration := 0, chunks := [] }

/-- A profile (id 1) whose first recording is `recFailedEx` (id 7). -/
def profileRetryEx : Profile :=
  { id := 1, title := "P".data, recorded_at := 0, summary := none,
    created_at := [], recordings := [recFailedEx] }

/-- A recording currently being processed, as a concrete test input. -/
def recProcessingEx : Recording :=
  { id := 8, profile_id := 2, file_path := "uploads/b.mp3".data, status := .processing,
    created_at := [], duration := 0, chunks := [] }

/-- A profile whose first recording is `processing`. -/
def profileProcessingEx : Profile :=
  { id := 2, title := "Q".data, recorded_at := 0, summary := none,
    created_at := [], recordings := [recProcessingEx] }

/-- A server state holding `profileProcessingEx`. -/
def stProcessingEx : ServerState :=
  { profiles := [profileProcessingEx], files := ["uploads/b.mp3".data], runsStarted := 0 }

/-- A concrete chunk builder for exercising `retryBackend`. -/
def mkChunkEx : Nat → Proposal → Chunk := fun rid pr =>
  { id := 0, recording_id := rid, title := pr.title, transcript := pr.text,
    start_time := pr.start, end_time := pr.stop, file_path := none,
    user_note := none, is_bookmarked := false }

/-- A chunk with a materialized audio artifact, as a concrete test input. -/
def chunkArtifactEx : Chunk :=
  { id := 11, recording_id := 7, title := "T".data, transcript := [],
    start_time := 0, end_time := 1, file_path := some "uploads/ch1.mp3".data,
    user_note := none, is_bookmarked := false }

/-- A completed recording owning `chunkArtifactEx`. -/
def recWithChunkEx : Recording :=
  { id := 7, profile_id := 1, file_path := "uploads/a.mp3".data, status := .completed,
    created_at := [], duration := 1, chunks := [chunkArtifactEx] }

/-- A profile owning `recWithChunkEx`, used to exercise cascade
deletion. -/
def profileDeleteEx : Profile :=
  { id := 1, title := "P".data, recorded_at := 0, summary := none,
    created_at := [], recordings := [recWithChunkEx] }

/-- A server state holding `profileDeleteEx` and its two audio
artifacts. -/
def stDeleteEx : ServerState :=
  { profiles := [profileDeleteEx],
    files := ["uploads/a.mp3".data, "uploads/ch1.mp3".data], runsStarted := 0 }

/-- A chunk with id 1, living in the first recording of
`profileTwoRecEx`. -/
def chunkR0Ex : Chunk :=
  { id := 1, recording_id := 7, title := [], transcript := [],
    start_time := 0, end_time := 1, file_path := none, user_note := none,
    is_bookmarked := false }

/-- A chunk with id 2, living in the second recording of
`profileTwoRecEx` only. -/
def chunkR1Ex : Chunk :=
  { id := 2, recording_id := 8, title := [], transcript := [],
    start_time := 0, end_time := 1, file_path := none, user_note := none,
    is_bookmarked := false }

/-- First recording of `profileTwoRecEx`, owning the chunk with id 1. -/
def recAEx : Recording :=
  { id := 7, profile_id := 1, file_path := "uploads/a.mp3".data, status := .completed,
    created_at := [], duration := 1, chunks := [chunkR0Ex] }

/-- Second recording of `profileTwoRecEx`, owning the chunk with id 2. -/
def recBEx : Recording :=
  { id := 8, profile_id := 1, file_path := "uploads/b.mp3".data, status := .completed,
    created_at := [], duration := 1, chunks := [chunkR1Ex] }

/-- A profile with two recordings; chunk id 2 exists only in the second
recording, outside the reach of the bookmark toggle's
`updatedRecordings[0]` lookup. -/
def profileTwoRecEx : Profile :=
  { id := 1, title := "P".data, recorded_at := 0, summary := none,
    created_at := [], recordings := [recAEx, recBEx] }

/-- An unbookmarked chunk with id 5, as a concrete test input. -/
def chunkC5Ex : Chunk :=
  { id := 5, recording_id := 9, title := [], transcript := [],
    start_time := 0, end_time := 1, file_path := none, user_note := none,
    is_bookmarked := false }

/-- A recording owning `chunkC5Ex`. -/
def recCEx : Recording :=
  { id := 9, profile_id := 3, file_path := "uploads/c.mp3".data, status := .completed,
    created_at := [], duration := 1, chunks := [chunkC5Ex] }

/-- A single-recording profile owning `chunkC5Ex`. -/
def profileOneRecEx : Profile :=
  { id := 3, title := "R".data, recorded_at := 0, summary := none,
    created_at := [], recordings := [recCEx] }

/-- Clamping the first proposal's start changes nothing when every
start is already nonnegative. -/
theorem clampFirst_of_nonneg (ps : List Proposal) (h : ∀ p ∈ ps, 0 ≤ p.start) :
    clampFirst ps = ps := by
  cases ps with
  | nil => rfl
  | cons p t =>
      have h0 : 0 ≤ p.start := h p (List.mem_cons_self p t)
      simp [clampFirst, max_eq_right h0]

/-- Clamping the last proposal's end leaves every start unchanged. -/
theorem clampLast_map_start (d : ℚ) :
    ∀ ps : List Proposal, (clampLast d ps).map Proposal.start = ps.map Proposal.start
  | [] => rfl
  | [_] => rfl
  | p :: q :: rest => by
      have ih := clampLast_map_start d (q :: rest)
      simp [clampLast, ih]

/-- Combined facts about overlap resolution applied after end-clamping:
starts are untouched, adjacent pairs end up with stop ≤ next start, and
for start-sorted in-range inputs every stop is bounded by the
duration. -/
theorem resolveClamp_facts (d : ℚ) :
    ∀ l : List Proposal,
      List.Chain' (fun p q => p.start ≤ q.start) l →
      (∀ p ∈ l, 0 ≤ p.start ∧ p.start ≤ d) →
      (resolveOverlaps (clampLast d l)).map Proposal.start = l.map Proposal.start ∧
      List.Chain' (fun p q => p.stop ≤ q.start) (resolveOverlaps (clampLast d l)) ∧
      (∀ c ∈ resolveOverlaps (clampLast d l), 0 ≤ c.start ∧ c.stop ≤ d)
  | [], _, _ => by simp [clampLast, resolveOverlaps]
  | [p], _, hb => by
      refine ⟨rfl, by simp [clampLast, resolveOverlaps], ?_⟩
      intro c hc
      simp [clampLast, resolveOverlaps] at hc
      subst hc
      exact ⟨(hb p (by simp)).1, min_le_left d p.stop⟩
  | p :: q :: rest, hc, hb => by
      have hcq : List.Chain' (fun p q => p.start ≤ q.start) (q :: rest) :=
        (List.chain'_cons.mp hc).2
      have hpq : p.start ≤ q.start := (List.chain'_cons.mp hc).1
      have hbq : ∀ x ∈ q :: rest, 0 ≤ x.start ∧ x.start ≤ d :=
        fun x hx => hb x (List.mem_cons_of_mem p hx)
      have ih := resolveClamp_facts d (q :: rest) hcq hbq
      have hmapq := clampLast_map_start d (q :: rest)
      cases hx : clampLast d (q :: rest) with
      | nil => rw [hx] at hmapq; simp at hmapq
      | cons x xs =>
          rw [hx] at hmapq ih
          have hxq : x.start = q.start := by
            have := congrArg List.head? hmapq
            simpa using this
          have hcl : clampLast d (p :: q :: rest) = p :: x :: xs := by
            simp [clampLast, hx]
          rw [hcl]
          have hro : resolveOverlaps (p :: x :: xs)
              = { p with stop := if x.start < p.stop then x.start else p.stop }
                :: resolveOverlaps (x :: xs) := rfl
          rw [hro]
          have hqd : q.start ≤ d := (hbq q (by simp)).2
          have hstop : (if x.start < p.stop then x.start else p.stop) ≤ q.start := by
            by_cases hlt : x.start < p.stop
            · rw [if_pos hlt, hxq]
            · rw [if_neg hlt]
              exact le_of_not_lt hlt |>.trans (le_of_eq hxq)
          refine ⟨?_, ?_, ?_⟩
          · simp only [List.map_cons]
            rw [ih.1]
            simp
          · rw [List.chain'_cons']
            refine ⟨?_, ih.2.1⟩
            intro y hy
            cases hm : resolveOverlaps (x :: xs) with
            | nil => rw [hm] at hy; simp at hy
            | cons y0 ys =>
                rw [hm] at hy ih
                simp at hy
                subst hy
                have hy0 : y0.start = q.start := by
                  have := congrArg List.head? ih.1
                  simpa using this
                show (if x.start < p.stop then x.start else p.stop) ≤ y0.start
                rw [hy0]
                exact hstop
          · intro c hcm
            rcases List.mem_cons.mp hcm with h1 | h2
            · subst h1
              refine ⟨(hb p (by simp)).1, ?_⟩
              show (if x.start < p.stop then x.start else p.stop) ≤ d
              exact hstop.trans hqd
            · exact ih.2.2 c h2

/-- A chain of a transitive relation along a list is pairwise. -/
theorem chain_trans_pairwise {α : Type} {R : α → α → Prop}
    (tr : ∀ a b c, R a b → R b c → R a c) :
    ∀ l : List α, List.Chain' R l → List.Pairwise R l
  | [], _ => List.Pairwise.nil
  | [a], _ => by simp
  | a :: b :: t, h => by
      rw [List.chain'_cons] at h
      have ihp := chain_trans_pairwise tr (b :: t) h.2
      refine List.pairwise_cons.mpr ⟨?_, ihp⟩
      intro x hx
      rcases List.mem_cons.mp hx with h1 | h2
      · subst h1; exact h.1
      · exact tr a b x h.1 ((List.pairwise_cons.mp ihp).1 x h2)

/-- A chain of `R` combined with a pairwise `S` gives a pairwise `R`
when `R` composes with `S` on the right. -/
theorem chain_pairwise_mixed {α : Type} {R S : α → α → Prop}
    (comp : ∀ a b c, R a b → S b c → R a c) :
    ∀ l : List α, List.Chain' R l → List.Pairwise S l → List.Pairwise R l
  | [], _, _ => List.Pairwise.nil
  | [a], _, _ => by simp
  | a :: b :: t, hc, hp => by
      rw [List.chain'_cons] at hc
      have hpt := (List.pairwise_cons.mp hp).2
      have ihp := chain_pairwise_mixed comp (b :: t) hc.2 hpt
      refine List.pairwise_cons.mpr ⟨?_, ihp⟩
      intro x hx
      rcases List.mem_cons.mp hx with h1 | h2
      · subst h1; exact hc.1
      · exact comp a b x hc.1 ((List.pairwise_cons.mp hpt).1 x h2)

/-- C1: for every recording completed by the pipeline — its chunk set
being the ChunkAssembler's output on the segmentation proposals
(start-sorted, with starts inside `[0, duration]`, as the segmentation
of an in-range transcript produces) — the chunk list is sorted by start
time and non-overlapping: each chunk's stop is at most the next chunk's
start, every start is `≥ 0`, and every stop is at most the recording's
duration. -/
theorem assemble_nonoverlap_invariant (d : ℚ) (ps cs : List Proposal)
    (hsorted : List.Chain' (fun p q => p.start ≤ q.start) ps)
    (hbounds : ∀ p ∈ ps, 0 ≤ p.start ∧ p.start ≤ d)
    (hok : assemble d ps = .ok cs) :
    List.Chain' (fun c c2 => c.stop ≤ c2.start) cs ∧
    List.Chain' (fun c c2 => c.start ≤ c2.start) cs ∧
    (∀ c ∈ cs, 0 ≤ c.start ∧ c.stop ≤ d) := by
  have hcs : cs = assembleChunks d ps := by
    simp only [assemble] at hok
    by_cases he : (assembleChunks d ps).isEmpty
    · rw [if_pos he] at hok; exact absurd hok (by simp)
    · rw [if_neg he] at hok; exact (Except.ok.inj hok).symm
  have hclamp : clampFirst ps = ps :=
    clampFirst_of_nonneg ps (fun p hp => (hbounds p hp).1)
  have M := resolveClamp_facts d ps hsorted hbounds
  have hcs2 : cs = dropDegenerate (resolveOverlaps (clampLast d ps)) := by
    rw [hcs]; simp only [assembleChunks, hclamp]
  have hchainstart : List.Chain' (fun p q => p.start ≤ q.start)
      (resolveOverlaps (clampLast d ps)) := by
    have h1 : List.Chain' (fun a b => a ≤ b)
        ((resolveOverlaps (clampLast d ps)).map Proposal.start) := by
      rw [M.1]
      exact (List.chain'_map Proposal.start).mpr hsorted
    exact (List.chain'_map Proposal.start).mp h1
  have hpairS : List.Pairwise (fun p q => p.start ≤ q.start)
      (resolveOverlaps (clampLast d ps)) :=
    chain_trans_pairwise (R := fun (p q : Proposal) => p.start ≤ q.start)
      (fun a b c hab hbc => le_trans hab hbc) _ hchainstart
  have hpairR : List.Pairwise (fun p q => p.stop ≤ q.start)
      (resolveOverlaps (clampLast d ps)) :=
    chain_pairwise_mixed (R := fun (p q : Proposal) => p.stop ≤ q.start)
      (S := fun (p q : Proposal) => p.start ≤ q.start)
      (fun a b c hab hbc => le_trans hab hbc) _ M.2.1 hpairS
  have hsub : cs.Sublist (resolveOverlaps (clampLast d ps)) := by
    rw [hcs2]; exact List.filter_sublist _
  exact ⟨(List.Pairwise.sublist hsub hpairR).chain',
    (List.Pairwise.sublist hsub hpairS).chain',
    fun c hcm => M.2.2 c (hsub.mem hcm)⟩

/-- Witness for C1 at the spec §8 example: the invariant holds of the
concrete assembled chunk set of the 600-second recording. -/
theorem assemble_nonoverlap_invariant_witness :
    List.Chain' (fun c c2 => c.stop ≤ c2.start) exampleAssembled ∧
    List.Chain' (fun c c2 => c.start ≤ c2.start) exampleAssembled ∧
    (∀ c ∈ exampleAssembled, 0 ≤ c.start ∧ c.stop ≤ 600) :=
  assemble_nonoverlap_invariant 600 exampleProposals exampleAssembled
    (by simp [exampleProposals, List.chain'_cons]; norm_num) (by decide) (by rfl)

/-- The overlap-resolution pass, described positionally: whenever the
next proposal's start is below the current proposal's stop, the
resolved list carries the next proposal's start as the current stop. -/
theorem resolveOverlaps_stop_set : ∀ (ps : List Proposal) (i : Nat)
    (h1 : i < ps.length) (h2 : i + 1 < ps.length)
    (h3 : i < (resolveOverlaps ps).length),
    (ps.get ⟨i + 1, h2⟩).start < (ps.get ⟨i, h1⟩).stop →
    ((resolveOverlaps ps).get ⟨i, h3⟩).stop = (ps.get ⟨i + 1, h2⟩).start
  | [], i, h1, _, _ => by simp at h1
  | [_], _, _, h2, _ => by simp at h2
  | p :: q :: rest, 0, h1, h2, h3 => by
      intro hlt
      show (if q.start < p.stop then q.start else p.stop) = q.start
      exact if_pos hlt
  | p :: q :: rest, Nat.succ i, h1, h2, h3 => by
      intro hlt
      have h1' : i < (q :: rest).length := by
        simp at h1 ⊢; omega
      have h2' : i + 1 < (q :: rest).length := by
        simp at h2 ⊢; omega
      have h3' : i < (resolveOverlaps (q :: rest)).length := by
        have hlen : (resolveOverlaps (p :: q :: rest)).length
            = (resolveOverlaps (q :: rest)).length + 1 := rfl
        rw [hlen] at h3; omega
      have e1 : (p :: q :: rest).get ⟨i + 1 + 1, h2⟩ = (q :: rest).get ⟨i + 1, h2'⟩ := rfl
      have e2 : (p :: q :: rest).get ⟨i + 1, h1⟩ = (q :: rest).get ⟨i, h1'⟩ := rfl
      have e3 : (resolveOverlaps (p :: q :: rest)).get ⟨i + 1, h3⟩
          = (resolveOverlaps (q :: rest)).get ⟨i, h3'⟩ := rfl
      rw [e1, e2] at hlt
      rw [e3, e1]
      exact resolveOverlaps_stop_set (q :: rest) i h1' h2' h3' hlt

/-- C4: the ChunkAssembler resolves an overlap between consecutive
proposals by shrinking the earlier one — whenever proposal `i`'s end
exceeds proposal `i+1`'s start, the resolved end of proposal `i` is
proposal `i+1`'s start — and consequently the 600-second recording with
proposals (Intro,0,120), (Body,115,400), (Outro,400,600) assembles to
(Intro,0,115), (Body,115,400), (Outro,400,600). -/
theorem chunkAssembler_overlap_resolution :
    (∀ (ps : List Proposal) (i : Nat) (h1 : i < ps.length) (h2 : i + 1 < ps.length)
      (h3 : i < (resolveOverlaps ps).length),
      (ps.get ⟨i + 1, h2⟩).start < (ps.get ⟨i, h1⟩).stop →
      ((resolveOverlaps ps).get ⟨i, h3⟩).stop = (ps.get ⟨i + 1, h2⟩).start) ∧
    assemble 600 exampleProposals = .ok exampleAssembled :=
  ⟨resolveOverlaps_stop_set, by rfl⟩

/-- Witness for C4 at the spec §8 example: the first proposal (end 120)
overlaps the second (start 115), and its resolved end is 115. -/
theorem chunkAssembler_overlap_resolution_witness :
    ((resolveOverlaps exampleProposals).get ⟨0, by decide⟩).stop
      = (exampleProposals.get ⟨1, by decide⟩).start :=
  chunkAssembler_overlap_resolution.1 exampleProposals 0 (by decide) (by decide)
    (by decide) (by decide)

/-- C2 counterexample: the claim quantifies over every profile whose
first recording is present and not `processing`, but the dashboard's
Resume affordance also depends on the client-side `retryingIds` set:
for the concrete failed recording `recFailedEx` with an in-flight retry
(`retrying = true`), the claim's biconditional demands the affordance
(status is `failed`) while `showRetry` is `false` (the card shows
"Processing..." instead). -/
theorem showRetry_counterexample :
    ¬ (∀ (r : Recording) (retrying : Bool), r.status ≠ .processing →
      (showRetry (some r) retrying = true ↔
        (r.status = .failed ∨ (r.status = .completed ∧ r.chunks.length = 0)))) := by
  intro h
  have h2 := (h recFailedEx true (by decide)).mpr (Or.inl rfl)
  exact absurd h2 (by decide)

/-- C2 (amended): for every profile whose first recording is present,
whose status is not `processing`, and for which no client-side retry
request is in flight, the dashboard offers the Resume affordance
exactly when the recording's status is `failed`, or its status is
`completed` and its chunk set is empty. -/
theorem showRetry_iff (r : Recording) (h : r.status ≠ .processing) :
    showRetry (some r) false = true ↔
      (r.status = .failed ∨ (r.status = .completed ∧ r.chunks.length = 0)) := by
  cases hs : r.status <;>
    simp [showRetry, isProcessingUI, statusOf, chunksLen, hs]

/-- Witness for C2 at the concrete failed recording: the biconditional
holds, and indeed the Resume affordance is offered there. -/
theorem showRetry_iff_witness :
    showRetry (some recFailedEx) false = true ↔
      (recFailedEx.status = .failed ∨
        (recFailedEx.status = .completed ∧ recFailedEx.chunks.length = 0)) :=
  showRetry_iff recFailedEx (by decide)

/-- C3 counterexample: the retry operation is not addressed by a
recording id — the dashboard passes `profile.id` to `retryProcessing`,
which posts to `/profiles/{profileId}/retry`.  For `profileRetryEx`
(profile id 1, first recording id 7), the id handed to retry is 1, not
the recording's 7. -/
theorem retry_addressing_counterexample :
    ¬ (∀ (p : Profile) (r : Recording), p.recordings.head? = some r →
        handleRetryArg p = r.id) := by
  intro h
  have h2 := h profileRetryEx recFailedEx rfl
  exact absurd h2 (by decide)

/-- C3 (amended): retry is addressed by a profile id (the frontend
posts to `/profiles/{profileId}/retry`) and returns the resulting
Recording; invoking it while the profile's recording is `processing`
fails with ConflictError, leaves the server state unchanged and does
not start a second pipeline run (the run counter is untouched). -/
theorem retry_conflict (result : Option (ℚ × List Proposal))
    (mkChunk : Nat → Proposal → Chunk) (st : ServerState) (pid : Nat)
    (p : Profile) (r : Recording)
    (hfind : st.profiles.find? (fun q => q.id == pid) = some p)
    (hhead : p.recordings.head? = some r)
    (hproc : r.status = .processing) :
    retryBackend result mkChunk st pid = (.error .conflict, st) ∧
    (retryBackend result mkChunk st pid).2.runsStarted = st.runsStarted := by
  have he : retryBackend result mkChunk st pid = (.error .conflict, st) := by
    simp only [retryBackend, hfind, hhead, hproc, if_pos]
  exact ⟨he, by rw [he]⟩

/-- Witness for C3 at a concrete state whose only profile's recording
is `processing`: retry yields ConflictError and the state, including
the run counter, is unchanged. -/
theorem retry_conflict_witness :
    retryBackend none mkChunkEx stProcessingEx 2 = (.error .conflict, stProcessingEx) ∧
    (retryBackend none mkChunkEx stProcessingEx 2).2.runsStarted
      = stProcessingEx.runsStarted :=
  retry_conflict none mkChunkEx stProcessingEx 2 profileProcessingEx recProcessingEx
    (by rfl) (by rfl) (by rfl)

/-- C5: every Recording's status is one of the four values `pending`,
`processing`, `completed`, `failed` (the `Status` type is exhaustive,
and every modelled operation produces a `Status`, so none can produce a
value outside this set), and a newly uploaded Recording starts in
`pending`. -/
theorem status_enum_and_initial :
    (∀ s : Status, s = .pending ∨ s = .processing ∨ s = .completed ∨ s = .failed) ∧
    (∀ (rid pid : Nat) (fp ca : Str), (uploadRecording rid pid fp ca).status = .pending) :=
  ⟨fun s => by cases s <;> simp, fun _ _ _ _ => rfl⟩

/-- C6: a chunk update request carries only the user note and the
bookmarked flag (the `ChunkUpdate` type has exactly those two optional
fields), and `update_chunk` leaves every other chunk field — ids,
title, transcript, start and end times, audio path — unchanged; with
neither field provided it is the identity. -/
theorem update_chunk_frame (c : Chunk) (u : ChunkUpdate) :
    (update_chunk c u).id = c.id ∧
    (update_chunk c u).recording_id = c.recording_id ∧
    (update_chunk c u).title = c.title ∧
    (update_chunk c u).transcript = c.transcript ∧
    (update_chunk c u).start_time = c.start_time ∧
    (update_chunk c u).end_time = c.end_time ∧
    (update_chunk c u).file_path = c.file_path ∧
    update_chunk c { user_note := none, is_bookmarked := none } = c :=
  ⟨rfl, rfl, rfl, rfl, rfl, rfl, rfl, rfl⟩

/-- C7: deleting a profile removes it (a later `get_profile` on its id
yields NotFoundError), removes every profile record bearing that id
(with all its recordings and chunks, which are owned by the record),
and removes every one of its materialized audio artifacts from file
storage. -/
theorem delete_profile_cascades (st : ServerState) (pid : Nat) :
    getProfileS (deleteProfileS st pid) pid = .error .notFound ∧
    (∀ p ∈ (deleteProfileS st pid).profiles, p.id ≠ pid) ∧
    (∀ p ∈ st.profiles, p.id = pid →
      ∀ a ∈ artifactsOfProfile p, a ∉ (deleteProfileS st pid).files) := by
  have hprof : (deleteProfileS st pid).profiles
      = st.profiles.filter (fun p => !(p.id == pid)) := rfl
  have hfiles : (deleteProfileS st pid).files
      = st.files.filter (fun f =>
          decide (f ∉ (st.profiles.filter (fun p => p.id == pid)).flatMap
            artifactsOfProfile)) := rfl
  refine ⟨?_, ?_, ?_⟩
  · have hnone : (deleteProfileS st pid).profiles.find? (fun p => p.id == pid) = none := by
      rw [hprof, List.find?_eq_none]
      intro x hx
      have hm := (List.mem_filter.mp hx).2
      simp at hm
      simp [hm]
    simp [getProfileS, hnone]
  · intro p hp
    rw [hprof] at hp
    have hm := (List.mem_filter.mp hp).2
    simpa using hm
  · intro p hp hpid a ha hmem
    rw [hfiles] at hmem
    have hdec := (List.mem_filter.mp hmem).2
    simp only [decide_eq_true_eq] at hdec
    apply hdec
    refine List.mem_flatMap.mpr ⟨p, ?_, ha⟩
    exact List.mem_filter.mpr ⟨hp, by simp [hpid]⟩

/-- Witness for C7 at a concrete one-profile state: after the delete,
`get_profile` fails with NotFoundError and the chunk's audio artifact
is gone from file storage. -/
theorem delete_profile_cascades_witness :
    getProfileS (deleteProfileS stDeleteEx 1) 1 = .error .notFound ∧
    "uploads/ch1.mp3".data ∉ (deleteProfileS stDeleteEx 1).files := by
  obtain ⟨h1, h2, h3⟩ := delete_profile_cascades stDeleteEx 1
  exact ⟨h1, h3 profileDeleteEx (by simp [stDeleteEx]) rfl
    "uploads/ch1.mp3".data (by decide)⟩

/-- Splitting a slash-free string at slashes yields the one-element
split. -/
theorem splitOnSlash_no_slash : ∀ s : Str, '/' ∉ s → splitOnSlash s = [s]
  | [], _ => rfl
  | c :: cs, h => by
      have hc : ¬ c = '/' := by
        intro e
        subst e
        exact h (List.mem_cons_self _ _)
      have ih := splitOnSlash_no_slash cs (fun m => h (List.mem_cons_of_mem c m))
      simp [splitOnSlash, ih, hc]

/-- Splitting `uploads/<name>` with a slash-free name yields exactly
the two components. -/
theorem splitOnSlash_uploads (s : Str) (h : '/' ∉ s) :
    splitOnSlash ("uploads/".data ++ s) = ["uploads".data, s] := by
  have ih := splitOnSlash_no_slash s h
  show splitOnSlash ('u' :: 'p' :: 'l' :: 'o' :: 'a' :: 'd' :: 's' :: '/' :: s) = _
  simp [splitOnSlash, ih]

/-- C8 counterexample: the two URL constructions are NOT equivalent on
exactly the domain of `uploads/<name>` paths — they also agree outside
it.  At the concrete path `abc` (no `uploads/` prefix, no slash) both
produce `http://localhost:8000/static/abc`, yet `abc` is not of the
form `uploads/<name>`. -/
theorem audio_url_exact_domain_counterexample :
    ¬ (∀ s : Str, (getAudioUrl (some s) = audioUrlOld s ↔
        ∃ t : Str, s = "uploads/".data ++ t ∧ '/' ∉ t)) := by
  intro h
  have h2 := (h "abc".data).mp (by decide)
  rcases h2 with ⟨t, ht, _⟩
  have hlen := congrArg List.length ht
  simp [List.length_append] at hlen

/-- C8 (amended): on every path of the form `uploads/<name>` with `<name>`
slash-free, the current DetailView's `getAudioUrl` (strip the leading
`uploads/`, prepend the static base) computes the same URL as the
earlier DetailView's last-path-component construction; the two agree on
this whole domain (though not only there, as they also coincide on
slash-free paths without the prefix). -/
theorem audio_url_equiv_on_uploads (s : Str) (h : '/' ∉ s) :
    getAudioUrl (some ("uploads/".data ++ s)) = audioUrlOld ("uploads/".data ++ s) := by
  have hne : ("uploads/".data ++ s) ≠ [] := by simp
  have htake : ("uploads/".data ++ s).take 8 = "uploads/".data :=
    List.take_left' (by rfl)
  have hdrop : ("uploads/".data ++ s).drop 8 = s :=
    List.drop_left' (by rfl)
  have hsplit : splitOnSlash ('u' :: 'p' :: 'l' :: 'o' :: 'a' :: 'd' :: 's' :: '/' :: s)
      = ["uploads".data, s] := splitOnSlash_uploads s h
  simp [getAudioUrl, stripUploads, audioUrlOld, lastComponent, hne, htake, hdrop, hsplit]

/-- Witness for C8 at the concrete path `uploads/a.mp3`: both
constructions yield the same URL. -/
theorem audio_url_equiv_witness :
    getAudioUrl (some ("uploads/".data ++ "a.mp3".data))
      = audioUrlOld ("uploads/".data ++ "a.mp3".data) :=
  audio_url_equiv_on_uploads "a.mp3".data (by decide)

/-- C9: the dashboard displays the fetched profiles sorted by
`recorded_at` descending, whatever order the server returned them in:
the rendered list is a permutation of the response, descending in
`recorded_at`. -/
theorem dashboard_sorted_desc (l : List Profile) :
    List.Chain' (fun a b => b.recorded_at ≤ a.recorded_at) (sortProfiles l) ∧
    (sortProfiles l).Perm l := by
  refine ⟨?_, List.mergeSort_perm l _⟩
  have hp := @List.sorted_mergeSort Profile
      (fun a b => decide (b.recorded_at ≤ a.recorded_at))
      (fun a b c hab hbc => by
        simp only [decide_eq_true_eq] at hab hbc ⊢
        exact le_trans hbc hab)
      (fun a b => by
        simp only [Bool.or_eq_true, decide_eq_true_eq]
        exact le_total b.recorded_at a.recorded_at)
      l
  have hp2 : List.Pairwise (fun a b : Profile => b.recorded_at ≤ a.recorded_at)
      (sortProfiles l) :=
    hp.imp (fun h => of_decide_eq_true h)
  exact hp2.chain'

/-- Mapping a pointwise-identity function over a list is the
identity. -/
theorem map_fixpoints {α : Type} (f : α → α) (h : ∀ a, f a = a) :
    ∀ l : List α, l.map f = l
  | [] => rfl
  | a :: t => by simp [h a, map_fixpoints f h t]

/-- Toggling the same chunk id twice restores the chunk. -/
theorem toggleChunk_involutive (cid : Nat) (c : Chunk) :
    toggleChunk cid (toggleChunk cid c) = c := by
  cases c with
  | mk cId cRec cTitle cTr cSt cEn cFp cUn cIb =>
      by_cases h0 : cId = cid <;> simp [toggleChunk, h0]

/-- Toggling the same chunk id twice restores the recording. -/
theorem toggleRecording_involutive (cid : Nat) (r : Recording) :
    toggleRecording cid (toggleRecording cid r) = r := by
  cases r with
  | mk a b c d e f chs =>
      simp only [toggleRecording, List.map_map]
      rw [map_fixpoints (toggleChunk cid ∘ toggleChunk cid)
        (fun x => toggleChunk_involutive cid x)]

/-- The bookmark toggle never changes a chunk's id. -/
theorem toggleChunk_id (cid : Nat) (c : Chunk) : (toggleChunk cid c).id = c.id := by
  by_cases h0 : c.id = cid
  · simp [toggleChunk, h0]
  · simp [toggleChunk, h0]

/-- C10 (amended): one application of the bookmark toggle negates
`is_bookmarked` of exactly the chunks bearing the toggled id and leaves
every other chunk (and every other field) unchanged, pointwise across
all recordings; the value sent to the server is the negation of the old
flag whenever the chunk id is found in the profile's FIRST recording;
and toggling twice restores the original profile state. -/
theorem toggle_bookmark_props (p : Profile) (cid : Nat) :
    (∀ (i j : Nat) (hi : i < p.recordings.length)
      (hi2 : i < (toggleBookmark p cid).recordings.length)
      (hj : j < (p.recordings.get ⟨i, hi⟩).chunks.length)
      (hj2 : j < ((toggleBookmark p cid).recordings.get ⟨i, hi2⟩).chunks.length),
      ((toggleBookmark p cid).recordings.get ⟨i, hi2⟩).chunks.get ⟨j, hj2⟩
        = (if ((p.recordings.get ⟨i, hi⟩).chunks.get ⟨j, hj⟩).id = cid
           then { (p.recordings.get ⟨i, hi⟩).chunks.get ⟨j, hj⟩ with
                  is_bookmarked :=
                    !((p.recordings.get ⟨i, hi⟩).chunks.get ⟨j, hj⟩).is_bookmarked }
           else (p.recordings.get ⟨i, hi⟩).chunks.get ⟨j, hj⟩)) ∧
    (∀ (r : Recording) (c : Chunk), p.recordings.head? = some r →
      r.chunks.find? (fun x => x.id == cid) = some c →
      toggleBookmarkSent p cid = some (!c.is_bookmarked)) ∧
    toggleBookmark (toggleBookmark p cid) cid = p := by
  refine ⟨?_, ?_, ?_⟩
  · intro i j hi hi2 hj hj2
    simp [toggleBookmark, toggleRecording, toggleChunk, List.get_map]
  · intro r c hr hfind
    have hhead : (toggleBookmark p cid).recordings.head?
        = some (toggleRecording cid r) := by
      show (p.recordings.map (toggleRecording cid)).head? = _
      rw [List.head?_map, hr]
      rfl
    have hcomp : ((fun x : Chunk => x.id == cid) ∘ toggleChunk cid)
        = (fun x : Chunk => x.id == cid) := by
      funext x
      simp [toggleChunk_id cid x]
    have hfind2 : ((toggleRecording cid r).chunks).find? (fun x => x.id == cid)
        = some (toggleChunk cid c) := by
      show ((r.chunks.map (toggleChunk cid)).find? (fun x => x.id == cid)) = _
      rw [List.find?_map, hcomp, hfind]
      rfl
    have hcid : c.id = cid := by simpa using List.find?_some hfind
    simp [toggleBookmarkSent, hhead, hfind2, toggleChunk, hcid]
  · cases p with
    | mk a b c d e recs =>
        simp only [toggleBookmark, List.map_map]
        rw [map_fixpoints (toggleRecording cid ∘ toggleRecording cid)
          (fun x => toggleRecording_involutive cid x)]

/-- C10 counterexample: the claim promises the negated flag is sent to
the server for every chunk id present in the profile, but the source
reads the value from `updatedRecordings[0]` only.  For
`profileTwoRecEx`, whose chunk id 2 lives in the SECOND recording, the
toggle sends no value (the lookup misses), not the negation `some
true`. -/
theorem toggle_bookmark_sent_counterexample :
    ¬ (∀ (p : Profile) (cid : Nat) (r : Recording) (c : Chunk),
        r ∈ p.recordings → c ∈ r.chunks → c.id = cid →
        toggleBookmarkSent p cid = some (!c.is_bookmarked)) := by
  intro h
  have h2 := h profileTwoRecEx 2 recBEx chunkR1Ex (by decide) (by decide) rfl
  exact absurd h2 (by decide)

/-- Witness for C10 at a concrete single-recording profile: the chunk's
flag is negated in place, the negated value `some true` is sent, and a
second toggle restores the profile. -/
theorem toggle_bookmark_props_witness :
    (((toggleBookmark profileOneRecEx 5).recordings.get ⟨0, by decide⟩).chunks.get
        ⟨0, by decide⟩
      = { chunkC5Ex with is_bookmarked := true }) ∧
    toggleBookmarkSent profileOneRecEx 5 = some true ∧
    toggleBookmark (toggleBookmark profileOneRecEx 5) 5 = profileOneRecEx := by
  obtain ⟨A, B, C⟩ := toggle_bookmark_props profileOneRecEx 5
  refine ⟨?_, ?_, C⟩
  · have h1 := A 0 0 (by decide) (by decide) (by decide) (by decide)
    simpa using h1
  · have h2 := B recCEx chunkC5Ex rfl (by rfl)
    simpa using h2
